import Mathlib

/-!
Shallow embedding of the fplll BKZ reduction driver.

Source files embedded:
* `src/src/bkz.cpp`   — `BKZAutoAbort<FT>::testAbort`, `BKZReduction<FT>::svpReduction`,
  `BKZReduction<FT>::bkzLoop`, `BKZReduction<FT>::bkz`, `BKZReduction<FT>::setStatus`.
* `src/fplll/defs.h`  — the `RedStatus` codes and `BKZFlags` bit values.

Modelling conventions:
* The external collaborators (the LLL object, the enumeration engine, the GSO
  matrix, the CPU clock, and the `getCurrentSlope` computation, whose numerical
  content is floating point and out of scope) are oracles: an `Env` assigns to
  the k-th call of each collaborator its result.  The driver state carries one
  counter per oracle, advanced exactly when the C++ code performs the call.
* Floating-point (`FT`, `double`) quantities are modelled as `ℚ`; enumeration
  coordinates, which the code reads back as small integers (`is_zero`,
  `get_d() == ±1`), are modelled as `ℤ`.
* Basis/GSO mutations (`moveRow`, `createRow`, `removeLastRow`, `row_addmul`,
  `rowOpBegin`/`rowOpEnd`, `discoverAllRows`) are recorded in an event trace,
  and the GSO row count `m.d` is tracked explicitly in the state.  Entry into
  `svpReduction` and into a tour (`bkzLoop`) is also recorded, as pure
  instrumentation, so that theorems can speak about which blocks were started.
* Diagnostic output (`BKZ_VERBOSE` printing, `BKZ_DUMP_GSO` file dumps) is pure
  I/O and is not modelled; the `kappaMax` bookkeeping that feeds it is kept.
* The unbounded `for` loops (`bkz`'s main loop, the preprocessing loop of
  `svpReduction`) take a fuel argument and return `none` when it runs out.
* The `param.preprocessing` pointer chain is passed as an explicit
  `List BKZParam` (head = the preprocessing parameters of the current level),
  which makes the recursion over nested preprocessing structural.
* The build is a release build: `FPLLL_DEBUG_CHECK` (src/fplll/defs.h lines
  96-107) expands to nothing, so the debug assertions in `svpReduction` are
  not guards.
-/

/-! ## Status codes (src/fplll/defs.h, enum RedStatus, lines 143-155) -/

def RED_SUCCESS : ℕ := 0

def RED_GSO_FAILURE : ℕ := 2

def RED_BABAI_FAILURE : ℕ := 3

def RED_LLL_FAILURE : ℕ := 4

def RED_ENUM_FAILURE : ℕ := 5

def RED_BKZ_FAILURE : ℕ := 6

def RED_BKZ_TIME_LIMIT : ℕ := 7

def RED_BKZ_LOOPS_LIMIT : ℕ := 8

/-! ## Flag bits (src/fplll/defs.h, enum BKZFlags, lines 239-252) -/

def BKZ_VERBOSE : ℕ := 1

def BKZ_NO_LLL : ℕ := 2

def BKZ_MAX_LOOPS : ℕ := 4

def BKZ_MAX_TIME : ℕ := 8

def BKZ_BOUNDED_LLL : ℕ := 0x10

def BKZ_AUTO_ABORT : ℕ := 0x20

def BKZ_DUMP_GSO : ℕ := 0x40

/-- Test of `flags & f` as in the C++ driver. -/
def hasFlag (flags f : ℕ) : Bool := decide (Nat.land flags f ≠ 0)

/-! ## BKZAutoAbort (src/src/bkz.cpp lines 25-34) -/

/-- State of a `BKZAutoAbort` object.  `oldSlope` is a `double` in the source;
`none` represents `+∞`. -/
structure AutoAbortState where
  oldSlope : Option ℚ
  noDec : ℤ
  deriving Repr, DecidableEq

/-- The comparison `newSlope < scale * oldSlope` of `testAbort` (line 28).
When `oldSlope` is `+∞` the IEEE product `scale * +∞` is `+∞` for positive
`scale` (comparison true), and `-∞` or NaN otherwise (comparison false).
The driver never consults this case: `oldSlope = +∞` only in the fresh state,
where `noDec == -1` short-circuits the disjunction. -/
def slopeLtScaled (newSlope scale : ℚ) : Option ℚ → Bool
  | none => decide (0 < scale)
  | some o => decide (newSlope < scale * o)

/-- `min(oldSlope, newSlope)` of `testAbort` (line 32), with `none` = `+∞`. -/
def minSlope : Option ℚ → ℚ → Option ℚ
  | none, ns => some ns
  | some o, ns => some (min o ns)

/-- `BKZAutoAbort<FT>::testAbort` (src/src/bkz.cpp lines 26-34).  The value
`newSlope = -getCurrentSlope(m, startRow, numRows)` computed on line 27 is
taken as an argument: `getCurrentSlope` is a floating-point least-squares fit
over the GSO profile, abstracted as an oracle by the driver embedding. -/
def testAbort (st : AutoAbortState) (newSlope scale : ℚ) (maxNoDec : ℤ) :
    Bool × AutoAbortState :=
  let noDec1 : ℤ :=
    if st.noDec = -1 ∨ slopeLtScaled newSlope scale st.oldSlope = true then 0
    else st.noDec + 1
  let oldSlope1 := minSlope st.oldSlope newSlope
  (decide (maxNoDec ≤ noDec1), ⟨oldSlope1, noDec1⟩)

/-- Transcription of spec §4.2 steps 2-4, for comparison with `testAbort`:
if `noDec == -1` or `newSlope < scale * oldSlope` then `noDec ← 0` else
`noDec ← noDec + 1`; `oldSlope ← min(oldSlope, newSlope)`; return
`noDec ≥ maxNoDec`. -/
def testAbortSpec (st : AutoAbortState) (newSlope scale : ℚ) (maxNoDec : ℤ) :
    Bool × AutoAbortState :=
  let noDec1 : ℤ :=
    if st.noDec = -1 ∨ slopeLtScaled newSlope scale st.oldSlope = true then 0
    else st.noDec + 1
  (decide (maxNoDec ≤ noDec1), ⟨minSlope st.oldSlope newSlope, noDec1⟩)

/-- Modelled from the spec: the `BKZAutoAbort` constructor is declared in
`bkz.h`, which is not part of the sources; spec §4.2 states the fields are
initialised to `oldSlope = +∞` and `noDec = -1` (the sentinel). -/
def freshAutoAbort : AutoAbortState := ⟨none, -1⟩

/-! ## Driver state, oracles and the mutation trace -/

/-- Observable collaborator calls and basis/GSO mutations made by the driver,
in program order.  `svpEnter`/`tourEnter` are instrumentation marking entry
into `svpReduction` and `bkzLoop`. -/
inductive Event where
  | lllCall (lo startRed hi : ℤ)
  | sizeRedCall (lo hi : ℤ)
  | enumCall (kappa kappaEnd : ℕ)
  | moveRow (src dst : ℤ)
  | createRow
  | removeLastRow
  | rowAddmul (dst src : ℤ) (coeff : ℤ)
  | rowOpBegin (lo hi : ℤ)
  | rowOpEnd (lo hi : ℤ)
  | discoverAllRows
  | svpEnter (kappa blockSize : ℕ)
  | tourEnter (minRow maxRow : ℕ)
  deriving Repr, DecidableEq

/-- Result of one call to the LLL object (`lllObj.lll` or
`lllObj.sizeReduction`), per the collaborator contract of spec §6.2. -/
structure LLLResult where
  ok : Bool
  nSwaps : ℕ
  status : ℕ
  deriving Repr, DecidableEq

/-- Result of one call to `Enumeration::enumerate`: the coordinates left in
`evaluator.solCoord` (empty on no-solution) and the value of `maxDist` after
the call (the found squared norm; `enumerate` takes `maxDist` by reference). -/
structure EnumResult where
  solCoord : List ℤ
  newMaxDist : ℚ
  deriving Repr, DecidableEq

/-- Oracles for the external collaborators: the k-th call of each kind gets
the indicated result.  `rkk k` is the k-th read `m.getRExp(kappa, kappa)`
(mantissa and exponent folded into one rational value), `slope k` the k-th
evaluation of `getCurrentSlope`, `clock k` the k-th `cputime()` reading in
milliseconds. -/
structure Env where
  lllRes : ℕ → LLLResult
  enumRes : ℕ → EnumResult
  rkk : ℕ → ℚ
  slope : ℕ → ℚ
  clock : ℕ → ℚ

/-- Driver-visible state: the GSO row count `m.d`, the `BKZReduction::status`
field, the per-oracle call counters, and the event trace. -/
structure DriverState where
  d : ℕ
  status : ℕ
  nLll : ℕ
  nEnum : ℕ
  nRkk : ℕ
  nSlope : ℕ
  nClock : ℕ
  trace : List Event
  deriving Repr, DecidableEq

/-- State of a freshly constructed `BKZReduction` object over a GSO with `d`
rows: the constructor (src/src/bkz.cpp lines 36-43) initialises
`status(RED_SUCCESS)`. -/
def mkState (d : ℕ) : DriverState :=
  { d := d, status := RED_SUCCESS, nLll := 0, nEnum := 0, nRkk := 0,
    nSlope := 0, nClock := 0, trace := [] }

/-- Append one event to the trace. -/
def emit (st : DriverState) (e : Event) : DriverState :=
  { st with trace := st.trace ++ [e] }

/-- Append a batch of events to the trace. -/
def emitAll (st : DriverState) (es : List Event) : DriverState :=
  { st with trace := st.trace ++ es }

/-- Account for a call `lllObj.lll(lo, startRed, hi)`. -/
def recordLLL (st : DriverState) (lo startRed hi : ℤ) : DriverState :=
  { st with nLll := st.nLll + 1, trace := st.trace ++ [Event.lllCall lo startRed hi] }

/-- Account for a call `lllObj.sizeReduction(lo, hi)` (same LLL object, hence
the same oracle counter as `lll`). -/
def recordSizeRed (st : DriverState) (lo hi : ℤ) : DriverState :=
  { st with nLll := st.nLll + 1, trace := st.trace ++ [Event.sizeRedCall lo hi] }

/-- Account for a call `Enumeration::enumerate(..., kappa, kappaEnd, ...)`. -/
def recordEnum (st : DriverState) (kappa kappaEnd : ℕ) : DriverState :=
  { st with nEnum := st.nEnum + 1, trace := st.trace ++ [Event.enumCall kappa kappaEnd] }

/-- Account for a read `m.getRExp(kappa, kappa, expo)`. -/
def recordRkk (st : DriverState) : DriverState :=
  { st with nRkk := st.nRkk + 1 }

/-- Account for one evaluation of `getCurrentSlope` inside `testAbort`. -/
def recordSlope (st : DriverState) : DriverState :=
  { st with nSlope := st.nSlope + 1 }

/-- Account for one `cputime()` reading. -/
def recordClock (st : DriverState) : DriverState :=
  { st with nClock := st.nClock + 1 }

/-- `BKZReduction<FT>::setStatus` (src/src/bkz.cpp lines 259-269): store the
new status and return `status == RED_SUCCESS` (the `BKZ_VERBOSE` printing is
I/O and not modelled). -/
def setStatus (st : DriverState) (newStatus : ℕ) : Bool × DriverState :=
  (decide (newStatus = RED_SUCCESS), { st with status := newStatus })

/-- A `return setStatus(s);` from `svpReduction`, together with the value the
by-reference `clean` argument has at that point. -/
def statusReturn (st : DriverState) (s : ℕ) (clean : Bool) :
    Bool × DriverState × Bool :=
  (decide (s = RED_SUCCESS), { st with status := s }, clean)

/-- Contract of the LLL collaborator (spec §6.2): when a call reports failure,
its `status` field holds a failure code, not `RED_SUCCESS`. -/
def LLLContract (env : Env) : Prop :=
  ∀ k, (env.lllRes k).ok = false → (env.lllRes k).status ≠ RED_SUCCESS

/-! ## BKZ parameters -/

/-- The fields of `BKZParam` that the driver reads.  The `preprocessing`
pointer chain is passed to the driver functions separately, as a
`List BKZParam` whose head is the preprocessing parameter set of the current
level (empty list = null pointer).  `pruning` and `dumpGSOFilename` are opaque
pass-through data and are not modelled. -/
structure BKZParam where
  blockSize : ℕ
  delta : ℚ
  flags : ℕ
  maxLoops : ℤ
  maxTime : ℚ
  autoAbortScale : ℚ
  autoAbortMaxNoDec : ℤ
  deriving Repr, DecidableEq

/-! ## svpReduction (src/src/bkz.cpp lines 75-160) -/

/-- One step of the scan of `solCoord` (lines 121-128): count a nonzero
coordinate and remember the first index holding `±1`. -/
def classifyStep (sol : List ℤ) (acc : ℕ × ℤ) (i : ℕ) : ℕ × ℤ :=
  let c := sol.getD i 0
  if c ≠ 0 then
    (acc.1 + 1, if acc.2 = -1 ∧ (c = 1 ∨ c = -1) then (i : ℤ) else acc.2)
  else acc

/-- The scan `for (i = 0; i < blockSize; i++)` of lines 121-128 computing
`(nzVectors, iVector)`; `iVector` starts at `-1`. -/
def classify (sol : List ℤ) (blockSize : ℕ) : ℕ × ℤ :=
  (List.range blockSize).foldl (classifyStep sol) (0, -1)

/-- The insertion step of `svpReduction` (src/src/bkz.cpp lines 120-159),
entered once `solCoord` is known to be nonempty: classify the solution, apply
the δ-test (`if (maxDist >= deltaMaxDist) return true;`), then either move an
existing basis row up and size-reduce it (`nzVectors == 1`), or run the
augment-then-collapse general case.  Returns the boolean result, the state,
and the value of the by-reference `clean` flag. -/
def svpInsertion (env : Env) (kappa blockSize : ℕ) (sol : List ℤ)
    (maxDist deltaMaxDist : ℚ) (st : DriverState) (clean : Bool) :
    Bool × DriverState × Bool :=
  let nz := (classify sol blockSize).1
  let iVector := (classify sol blockSize).2
  if deltaMaxDist ≤ maxDist then (true, st, clean)
  else if nz = 1 then
    let st1 := emit st (Event.moveRow ((kappa : ℤ) + iVector) (kappa : ℤ))
    let r2 := env.lllRes st1.nLll
    let st2 := recordSizeRed st1 (kappa : ℤ) ((kappa : ℤ) + 1)
    if r2.ok = false then statusReturn st2 r2.status clean
    else (true, st2, false)
  else
    let dd := st.d
    let stA := { st with d := st.d + 1, trace := st.trace ++ [Event.createRow] }
    let stB := emit stA (Event.rowOpBegin (dd : ℤ) ((dd : ℤ) + 1))
    let stC := emitAll stB ((List.range blockSize).map fun (i : ℕ) =>
      Event.rowAddmul (dd : ℤ) ((kappa : ℤ) + (i : ℤ)) (sol.getD i 0))
    let stD := emit stC (Event.rowOpEnd (dd : ℤ) ((dd : ℤ) + 1))
    let stE := emit stD (Event.moveRow (dd : ℤ) (kappa : ℤ))
    let r3 := env.lllRes stE.nLll
    let stF := recordLLL stE (kappa : ℤ) (kappa : ℤ) ((kappa : ℤ) + (blockSize : ℤ) + 1)
    if r3.ok = false then statusReturn stF r3.status clean
    else
      let stG := emit stF (Event.moveRow ((kappa : ℤ) + (blockSize : ℤ)) (dd : ℤ))
      let stH := { stG with d := stG.d - 1, trace := stG.trace ++ [Event.removeLastRow] }
      (true, stH, false)

/-- Steps C and D of `svpReduction` (src/src/bkz.cpp lines 110-159): read
`r_{κ,κ}` as the radius, compute `deltaMaxDist = delta * maxDist`, enumerate,
fail with `RED_ENUM_FAILURE` on an empty `solCoord`, else run the insertion
step. -/
def svpEnumerate (env : Env) (delta : ℚ) (kappa blockSize : ℕ)
    (st : DriverState) (clean : Bool) : Bool × DriverState × Bool :=
  let maxDist0 := env.rkk st.nRkk
  let st5 := recordRkk st
  let deltaMaxDist := delta * maxDist0
  let er := env.enumRes st5.nEnum
  let st6 := recordEnum st5 kappa (kappa + blockSize)
  if er.solCoord = [] then statusReturn st6 RED_ENUM_FAILURE clean
  else svpInsertion env kappa blockSize er.solCoord er.newMaxDist deltaMaxDist st6 clean

/-- The kappa range of one tour: `for (kappa = minRow; kappa < maxRow-1;
kappa++)` (src/src/bkz.cpp line 164). -/
def bkzKappas (minRow maxRow : ℕ) : List ℕ :=
  List.range' minRow ((maxRow - 1) - minRow)

/-- The sweep of `bkzLoop` (src/src/bkz.cpp lines 164-172) over a list of
block start indices, parameterised by the block reduction function `svp`:
reduce a block of size `min(par.blockSize, maxRow - kappa)` at each `kappa`,
return `false` as soon as one block fails, and maintain the `kappaMax`
bookkeeping used by verbose output. -/
def tourGo (svp : ℕ → ℕ → DriverState → Bool → Option (Bool × DriverState × Bool))
    (verbose : Bool) (bs : ℕ) :
    List ℕ → ℕ → ℕ → DriverState → Bool → Option (Bool × ℕ × DriverState × Bool)
  | [], _, km, st, clean => some (true, km, st, clean)
  | kappa :: rest, maxRow, km, st, clean =>
    match svp kappa (min bs (maxRow - kappa)) st clean with
    | none => none
    | some (ok, st1, clean1) =>
      if ok = false then some (false, km, st1, clean1)
      else
        let km1 := if verbose = true ∧ km < kappa ∧ clean1 = true then kappa else km
        tourGo svp verbose bs rest maxRow km1 st1 clean1

/-- The recursive-preprocessing loop of `svpReduction` (src/src/bkz.cpp lines
94-107), parameterised by the tour function (`bkzLoop` over the preprocessing
parameters).  `flags`, `maxLoops`, `maxTime`, `scale`, `maxNoDec` are those of
the *current* level's `par` (which is what lines 95-97 read); `t0` is
`cputimeStart2`; `km` is `dummyKappaMax`.  Returns `(true, ...)` when the loop
breaks (driver continues with enumeration) and `(false, ...)` when an inner
tour failed (`return false;` on line 101). -/
def preprocAux (env : Env) (flags : ℕ) (maxLoops : ℤ) (maxTime scale : ℚ)
    (maxNoDec : ℤ)
    (tour : ℕ → ℕ → DriverState → Option (Bool × ℕ × DriverState × Bool)) :
    ℕ → ℚ → ℕ → AutoAbortState → ℕ → DriverState → Bool →
    Option (Bool × DriverState × Bool)
  | 0, _, _, _, _, _, _ => none
  | fuel + 1, t0, i, aa, km, st, clean =>
    if hasFlag flags BKZ_MAX_LOOPS = true ∧ maxLoops ≤ (i : ℤ) then
      some (true, st, clean)
    else
      let stT := if hasFlag flags BKZ_MAX_TIME = true then recordClock st else st
      if hasFlag flags BKZ_MAX_TIME = true ∧
          maxTime ≤ (env.clock st.nClock - t0) * (1 / 1000) then
        some (true, stT, clean)
      else
        let ta := testAbort aa (-(env.slope stT.nSlope)) scale maxNoDec
        let stS := recordSlope stT
        if ta.1 = true then some (true, stS, clean)
        else
          match tour i km stS with
          | none => none
          | some (ok, km1, st1, clean2) =>
            if ok = false then some (false, st1, clean)
            else if clean2 = true then some (true, st1, clean)
            else preprocAux env flags maxLoops maxTime scale maxNoDec tour
              fuel t0 (i + 1) ta.2 km1 st1 clean2

/-- `BKZReduction<FT>::svpReduction` (src/src/bkz.cpp lines 75-160).
`chain` is the `par.preprocessing` pointer chain.  Step A: LLL over
`[lllStart, kappa, kappa+blockSize)`, adopting the LLL status on failure and
clearing `clean` if it swapped.  Step B: if preprocessing parameters exist
with `blockSize` in `(2, blockSize)`, run the bounded preprocessing tour
sequence.  Steps C/D: `svpEnumerate`. -/
def svpReduction (env : Env) (delta : ℚ) (numRows : ℕ) (fuel : ℕ) :
    List BKZParam → BKZParam → ℕ → ℕ → DriverState → Bool →
    Option (Bool × DriverState × Bool)
  | chain, par, kappa, blockSize, st, clean =>
    let st1 := emit st (Event.svpEnter kappa blockSize)
    let lllStart : ℤ := if hasFlag par.flags BKZ_BOUNDED_LLL = true then (kappa : ℤ) else 0
    let r1 := env.lllRes st1.nLll
    let st2 := recordLLL st1 lllStart (kappa : ℤ) ((kappa : ℤ) + (blockSize : ℤ))
    if r1.ok = false then some (statusReturn st2 r1.status clean)
    else
      let clean1 := if 0 < r1.nSwaps then false else clean
      match chain with
      | [] => some (svpEnumerate env delta kappa blockSize st2 clean1)
      | preproc :: rest =>
        if preproc.blockSize < blockSize ∧ 2 < preproc.blockSize then
          let t0 := env.clock st2.nClock
          let st3 := recordClock st2
          match preprocAux env par.flags par.maxLoops par.maxTime
              par.autoAbortScale par.autoAbortMaxNoDec
              (fun _i km s =>
                tourGo (svpReduction env delta numRows fuel rest preproc)
                  (hasFlag preproc.flags BKZ_VERBOSE) preproc.blockSize
                  (bkzKappas kappa (kappa + blockSize)) (kappa + blockSize) km
                  (emit s (Event.tourEnter kappa (kappa + blockSize))) true)
              fuel t0 0 freshAutoAbort numRows st3 clean1 with
          | none => none
          | some (cont, st4, clean2) =>
            if cont = false then some (false, st4, clean2)
            else some (svpEnumerate env delta kappa blockSize st4 clean2)
        else some (svpEnumerate env delta kappa blockSize st2 clean1)

/-- `BKZReduction<FT>::bkzLoop` (src/src/bkz.cpp lines 162-193): one tour,
sweeping `kappa` over `bkzKappas minRow maxRow` (the `loop` argument only
feeds verbose output).  Returns the boolean result, the updated `kappaMax`,
the state, and the by-reference `clean` flag. -/
def bkzLoopRun (env : Env) (delta : ℚ) (numRows fuel : ℕ) (chain : List BKZParam)
    (par : BKZParam) (loop km minRow maxRow : ℕ) (st : DriverState)
    (clean : Bool) : Option (Bool × ℕ × DriverState × Bool) :=
  tourGo (svpReduction env delta numRows fuel chain par)
    (hasFlag par.flags BKZ_VERBOSE) par.blockSize
    (bkzKappas minRow maxRow) maxRow km
    (emit st (Event.tourEnter minRow maxRow)) clean

/-- The main loop of `BKZReduction<FT>::bkz` (src/src/bkz.cpp lines 222-242):
check the loops cap (status `RED_BKZ_LOOPS_LIMIT`), the time cap
(`RED_BKZ_TIME_LIMIT`), the auto-abort test (break with the final status still
`RED_SUCCESS`), then run one tour starting from `clean = true`; `return
false;` on tour failure; stop with `RED_SUCCESS` on a clean tour or when
`blockSize >= numRows`.  Breaking ends with `return setStatus(finalStatus);`. -/
def bkzMainLoop (env : Env) (numRows : ℕ) (param : BKZParam)
    (chain : List BKZParam) :
    ℕ → ℚ → ℕ → AutoAbortState → ℕ → DriverState → Option (Bool × DriverState)
  | 0, _, _, _, _, _ => none
  | fuel + 1, t0, iLoop, aa, km, st =>
    if hasFlag param.flags BKZ_MAX_LOOPS = true ∧ param.maxLoops ≤ (iLoop : ℤ) then
      some (setStatus st RED_BKZ_LOOPS_LIMIT)
    else
      let stT := if hasFlag param.flags BKZ_MAX_TIME = true then recordClock st else st
      if hasFlag param.flags BKZ_MAX_TIME = true ∧
          param.maxTime ≤ (env.clock st.nClock - t0) * (1 / 1000) then
        some (setStatus stT RED_BKZ_TIME_LIMIT)
      else
        let ta := testAbort aa (-(env.slope stT.nSlope)) param.autoAbortScale
          param.autoAbortMaxNoDec
        let stA := if hasFlag param.flags BKZ_AUTO_ABORT = true then recordSlope stT else stT
        let aa1 := if hasFlag param.flags BKZ_AUTO_ABORT = true then ta.2 else aa
        if hasFlag param.flags BKZ_AUTO_ABORT = true ∧ ta.1 = true then
          some (setStatus stA RED_SUCCESS)
        else
          match bkzLoopRun env param.delta numRows fuel chain param iLoop km 0 numRows stA true with
          | none => none
          | some (ok, km1, st1, clean) =>
            if ok = false then some (false, st1)
            else if clean = true ∨ numRows ≤ param.blockSize then
              some (setStatus st1 RED_SUCCESS)
            else bkzMainLoop env numRows param chain fuel t0 (iLoop + 1) aa1 km1 st1

/-- `BKZReduction<FT>::bkz` (src/src/bkz.cpp lines 195-243): return
`setStatus(RED_SUCCESS)` at once when `blockSize < 2`; otherwise record
`cputimeStart`, call `m.discoverAllRows()`, and enter the main loop with a
fresh auto-abort state and `kappaMax = 0` (the `BKZ_DUMP_GSO` dumps and
verbose parameter echo are I/O and not modelled). -/
def bkz (env : Env) (numRows : ℕ) (param : BKZParam) (chain : List BKZParam)
    (fuel : ℕ) (st : DriverState) : Option (Bool × DriverState) :=
  if param.blockSize < 2 then some (setStatus st RED_SUCCESS)
  else
    let t0 := env.clock st.nClock
    let st1 := recordClock st
    let st2 := emit st1 Event.discoverAllRows
    bkzMainLoop env numRows param chain fuel t0 0 freshAutoAbort 0 st2

/-! ## Concrete oracle instances used by witnesses and counterexamples -/

/-- Trivial oracles: LLL always succeeds without swaps, enumeration always
returns an empty `solCoord`, every numeric reading is `0`. -/
def envBase : Env :=
  { lllRes := fun _ => ⟨true, 0, RED_SUCCESS⟩,
    enumRes := fun _ => ⟨[], 0⟩,
    rkk := fun _ => 0,
    slope := fun _ => 0,
    clock := fun _ => 0 }

/-- Oracles driving `svpReduction` into the `nzVectors == 1`, `iVector == 0`
insertion case: `r_{κ,κ} = 4` and the enumerator finds `solCoord = [1, 0]` of
squared norm `1`. -/
def envC3 : Env :=
  { envBase with rkk := fun _ => 4, enumRes := fun _ => ⟨[1, 0], 1⟩ }

/-- Oracles driving `svpReduction` into the general insertion case
(`solCoord = [1, 1]`) with the inner LLL call failing: call 0 of the LLL
object succeeds, every later call fails with `RED_LLL_FAILURE`. -/
def envC4 : Env where
  lllRes := fun k => if k = 0 then ⟨true, 0, RED_SUCCESS⟩ else ⟨false, 0, RED_LLL_FAILURE⟩
  enumRes := fun _ => ⟨[1, 1], 1⟩
  rkk := fun _ => 4
  slope := fun _ => 0
  clock := fun _ => 0

/-- Oracles under which enumeration finds `solCoord = [1]` of squared norm `5`
against `r_{κ,κ} = 4`, so the δ-test keeps the current basis. -/
def envSucc : Env :=
  { envBase with rkk := fun _ => 4, enumRes := fun _ => ⟨[1], 5⟩ }

/-- Parameters with only `BKZ_MAX_LOOPS` set and `maxLoops = 0`. -/
def parC1 : BKZParam :=
  { blockSize := 2, delta := 1, flags := BKZ_MAX_LOOPS, maxLoops := 0,
    maxTime := 0, autoAbortScale := 1, autoAbortMaxNoDec := 5 }

/-- Parameters with only `BKZ_MAX_TIME` set and `maxTime = 0`. -/
def parC1T : BKZParam :=
  { blockSize := 2, delta := 1, flags := BKZ_MAX_TIME, maxLoops := 0,
    maxTime := 0, autoAbortScale := 1, autoAbortMaxNoDec := 5 }

/-- Plain parameters: block size 2, `delta = 1`, no flags. -/
def parC3 : BKZParam :=
  { blockSize := 2, delta := 1, flags := 0, maxLoops := 0, maxTime := 0,
    autoAbortScale := 1, autoAbortMaxNoDec := 5 }

/-! ## Invariant packages -/

/-- Invariant package for a block-reduction function: whenever it returns,
(a) its trace extension starts with its own `svpEnter` event, (b) a `true`
return preserves the GSO row count, and (c) starting from `RED_SUCCESS` the
returned boolean equals `status == RED_SUCCESS` on exit. -/
def SvpInv (svp : ℕ → ℕ → DriverState → Bool → Option (Bool × DriverState × Bool)) : Prop :=
  ∀ kappa blockSize st clean ok st1 clean1,
    svp kappa blockSize st clean = some (ok, st1, clean1) →
    (∃ t, st1.trace = st.trace ++ Event.svpEnter kappa blockSize :: t) ∧
    (ok = true → st1.d = st.d) ∧
    (st.status = RED_SUCCESS → (ok = true ↔ st1.status = RED_SUCCESS))

/-- Invariant package for a tour function (as consumed by the preprocessing
loop): trace extension, row-count preservation on `true`, and the
status/boolean correlation. -/
def TourInv (tour : ℕ → ℕ → DriverState → Option (Bool × ℕ × DriverState × Bool)) : Prop :=
  ∀ i km st ok km1 st1 clean1,
    tour i km st = some (ok, km1, st1, clean1) →
    (∃ t, st1.trace = st.trace ++ t) ∧
    (ok = true → st1.d = st.d) ∧
    (st.status = RED_SUCCESS → (ok = true ↔ st1.status = RED_SUCCESS))

/-! ## Claims about BKZAutoAbort -/

/-- C5: every call to `BKZAutoAbort::testAbort(scale, maxNoDec)` behaves as
described by spec §4.2: with the given `newSlope`, `noDec` is reset to 0 when
`noDec == -1` or `newSlope < scale * oldSlope` and incremented otherwise,
`oldSlope` becomes `min(oldSlope, newSlope)`, and the call returns true
exactly when the updated `noDec` is at least `maxNoDec`.  The first conjunct
is the refinement against the spec-transcribed `testAbortSpec`. -/
theorem claim_C5 (st : AutoAbortState) (newSlope scale : ℚ) (maxNoDec : ℤ) :
    testAbort st newSlope scale maxNoDec = testAbortSpec st newSlope scale maxNoDec ∧
    (testAbort st newSlope scale maxNoDec).2.noDec
      = (if st.noDec = -1 ∨ slopeLtScaled newSlope scale st.oldSlope = true then 0
         else st.noDec + 1) ∧
    (testAbort st newSlope scale maxNoDec).2.oldSlope = minSlope st.oldSlope newSlope ∧
    ((testAbort st newSlope scale maxNoDec).1 = true ↔
      maxNoDec ≤ (testAbort st newSlope scale maxNoDec).2.noDec) := by
  refine ⟨rfl, rfl, rfl, ?_⟩
  simp [testAbort]

/-- C2 counterexample: the claim asserts that a fresh auto-abort state never
aborts on its first `testAbort` call for any `maxNoDec ≥ 0`; but with
`maxNoDec = 0` the first call resets `noDec` to `0` and returns
`0 >= 0`, i.e. `true`. -/
theorem claim_C2_counterexample : (testAbort freshAutoAbort 1 1 0).1 = true := by decide

/-- C2 (amended): from the fresh state (`oldSlope = +∞`, `noDec = -1`), for
every `newSlope`, every `scale` and every `maxNoDec ≥ 1`, the first call to
`testAbort` returns false. -/
theorem claim_C2_amended (newSlope scale : ℚ) (maxNoDec : ℤ) (h : 1 ≤ maxNoDec) :
    (testAbort freshAutoAbort newSlope scale maxNoDec).1 = false := by
  have h0 : (testAbort freshAutoAbort newSlope scale maxNoDec).1
      = decide (maxNoDec ≤ 0) := rfl
  rw [h0, decide_eq_false_iff_not]
  omega

/-- Witness for C2 at `newSlope = 1`, `scale = 1`, `maxNoDec = 5`. -/
theorem claim_C2_witness :
    (1 : ℤ) ≤ 5 ∧ (testAbort freshAutoAbort 1 1 5).1 = false :=
  ⟨by decide, claim_C2_amended 1 1 5 (by decide)⟩

/-! ## Claims about the insertion step -/

/-- C9: when the δ-test passes (`maxDist < deltaMaxDist`) and the solution has
exactly one nonzero coordinate whose value is neither `1` nor `-1` (so
`classify` returns `nzVectors = 1`, `iVector = -1`), `svpReduction`'s
insertion step calls `m.moveRow(kappa + iVector, kappa)`, i.e.
`m.moveRow(kappa - 1, kappa)` — the row immediately before the block, which
for `kappa = 0` is the out-of-range index `-1` — with no guard (the
`FPLLL_DEBUG_CHECK(iVector != -1 && iVector != 0)` assertion is compiled away
in release builds). -/
theorem claim_C9 (env : Env) (kappa blockSize : ℕ) (sol : List ℤ)
    (maxDist deltaMaxDist : ℚ) (st : DriverState) (clean : Bool)
    (hδ : maxDist < deltaMaxDist) (hcl : classify sol blockSize = (1, -1)) :
    ∃ t, (svpInsertion env kappa blockSize sol maxDist deltaMaxDist st clean).2.1.trace
      = st.trace ++ Event.moveRow ((kappa : ℤ) - 1) (kappa : ℤ) :: t := by
  refine ⟨[Event.sizeRedCall (kappa : ℤ) ((kappa : ℤ) + 1)], ?_⟩
  simp only [svpInsertion, hcl]
  rw [if_neg (not_le.mpr hδ)]
  rw [sub_eq_add_neg]
  split
  · split <;> simp [statusReturn, recordSizeRed, emit]
  · exact absurd trivial ‹¬True›

/-- Witness for C9 at `kappa = 0`, `sol = [2, 0]`: the emitted event is
`moveRow (-1) 0`. -/
theorem claim_C9_witness :
    (1 : ℚ) < 4 ∧ classify [2, 0] 2 = (1, -1) ∧
    ∃ t, (svpInsertion envBase 0 2 [2, 0] 1 4 (mkState 5) true).2.1.trace
      = (mkState 5).trace ++ Event.moveRow (-1) 0 :: t :=
  ⟨by norm_num, by decide, claim_C9 envBase 0 2 [2, 0] 1 4 (mkState 5) true (by norm_num) (by decide)⟩

/-- C3 counterexample: the claim says the already-a-basis-row case is taken
exactly when `nz == 1` AND `iVector != 0`, every other shape going to the
general case.  With `solCoord = [1, 0]` (so `nz = 1` but `iVector = 0`) and a
passing δ-test, the code still takes the basis-row branch: the trace ends with
`moveRow 0 0` and a single-row size reduction, and no `createRow` occurs. -/
theorem claim_C3_counterexample :
    svpReduction envC3 1 5 3 [] parC3 0 2 (mkState 5) true
      = some (true, ⟨5, 0, 2, 1, 1, 0, 0,
          [Event.svpEnter 0 2, Event.lllCall 0 0 2, Event.enumCall 0 2,
           Event.moveRow 0 0, Event.sizeRedCall 0 1]⟩, false) := by
  simp [svpReduction, svpEnumerate, svpInsertion, classify, classifyStep,
    emit, emitAll, recordLLL, recordSizeRed, recordEnum, recordRkk,
    statusReturn, setStatus, envC3, envBase, parC3, mkState, hasFlag,
    List.range_succ, RED_SUCCESS, BKZ_BOUNDED_LLL]

/-- C3 (amended): in the insertion decision, when the solution passes the
δ-test, the already-a-basis-row branch (`moveRow(kappa + iVector, kappa)`
followed by a one-row size reduction) is taken exactly when `nz = 1`,
regardless of `iVector` (the condition `iVector != 0` is only a debug
assertion, compiled away in release builds); every other solution shape goes
through the augment-then-collapse general case, whose first mutation is
`createRow`. -/
theorem claim_C3_amended (env : Env) (kappa blockSize : ℕ) (sol : List ℤ)
    (maxDist deltaMaxDist : ℚ) (st : DriverState) (clean : Bool)
    (hδ : maxDist < deltaMaxDist) :
    ∃ t, (svpInsertion env kappa blockSize sol maxDist deltaMaxDist st clean).2.1.trace
        = st.trace ++ t ∧
      (t.head? = some (Event.moveRow ((kappa : ℤ) + (classify sol blockSize).2) (kappa : ℤ))
        ↔ (classify sol blockSize).1 = 1) ∧
      (t.head? = some Event.createRow ↔ (classify sol blockSize).1 ≠ 1) := by
  simp only [svpInsertion]
  rw [if_neg (not_le.mpr hδ)]
  by_cases hnz : (classify sol blockSize).1 = 1
  · rw [if_pos hnz]
    split
    · exact ⟨[Event.moveRow ((kappa : ℤ) + (classify sol blockSize).2) (kappa : ℤ),
        Event.sizeRedCall (kappa : ℤ) ((kappa : ℤ) + 1)],
        by simp [emit, recordSizeRed, statusReturn],
        by simp [hnz], by simp [hnz]⟩
    · exact ⟨[Event.moveRow ((kappa : ℤ) + (classify sol blockSize).2) (kappa : ℤ),
        Event.sizeRedCall (kappa : ℤ) ((kappa : ℤ) + 1)],
        by simp [emit, recordSizeRed, statusReturn],
        by simp [hnz], by simp [hnz]⟩
  · rw [if_neg hnz]
    split
    · refine ⟨Event.createRow :: ?_, ?_, ?_, ?_⟩
      · exact Event.rowOpBegin (st.d : ℤ) ((st.d : ℤ) + 1) ::
          ((List.range blockSize).map fun (i : ℕ) =>
            Event.rowAddmul (st.d : ℤ) ((kappa : ℤ) + (i : ℤ)) (sol.getD i 0)) ++
          [Event.rowOpEnd (st.d : ℤ) ((st.d : ℤ) + 1),
           Event.moveRow (st.d : ℤ) (kappa : ℤ),
           Event.lllCall (kappa : ℤ) (kappa : ℤ) ((kappa : ℤ) + (blockSize : ℤ) + 1)]
      · simp [emit, emitAll, recordLLL, statusReturn]
      · simp [hnz]
      · simp [hnz]
    · refine ⟨Event.createRow :: ?_, ?_, ?_, ?_⟩
      · exact Event.rowOpBegin (st.d : ℤ) ((st.d : ℤ) + 1) ::
          ((List.range blockSize).map fun (i : ℕ) =>
            Event.rowAddmul (st.d : ℤ) ((kappa : ℤ) + (i : ℤ)) (sol.getD i 0)) ++
          [Event.rowOpEnd (st.d : ℤ) ((st.d : ℤ) + 1),
           Event.moveRow (st.d : ℤ) (kappa : ℤ),
           Event.lllCall (kappa : ℤ) (kappa : ℤ) ((kappa : ℤ) + (blockSize : ℤ) + 1),
           Event.moveRow ((kappa : ℤ) + (blockSize : ℤ)) (st.d : ℤ),
           Event.removeLastRow]
      · simp [emit, emitAll, recordLLL, statusReturn]
      · simp [hnz]
      · simp [hnz]

/-- Witness for C3's amended theorem at `sol = [1, 1]` (general case): the
first appended event is `createRow`, not the basis-row move. -/
theorem claim_C3_witness :
    (1 : ℚ) < 4 ∧
    ∃ t, (svpInsertion envBase 0 2 [1, 1] 1 4 (mkState 5) true).2.1.trace
        = (mkState 5).trace ++ t ∧
      (t.head? = some (Event.moveRow ((0 : ℤ) + (classify [1, 1] 2).2) (0 : ℤ))
        ↔ (classify [1, 1] 2).1 = 1) ∧
      (t.head? = some Event.createRow ↔ (classify [1, 1] 2).1 ≠ 1) :=
  ⟨by norm_num, claim_C3_amended envBase 0 2 [1, 1] 1 4 (mkState 5) true (by norm_num)⟩

/-- C6: when the squared norm returned by enumeration is at least
`deltaMaxDist = delta * r_{kappa,kappa}` (radius read just before
enumeration), the insertion step is `return true; // Do nothing`: the first
conjunct shows the step returns `true` with state and `clean` flag exactly as
they were; the second shows the whole `svpReduction` call (no preprocessing)
then returns `true` with a trace whose last event is the enumeration call —
no basis or GSO mutation after it — and with `clean` exactly as the pre-LLL
step left it. -/
theorem claim_C6 :
    (∀ env (kappa blockSize : ℕ) (sol : List ℤ) (maxDist deltaMaxDist : ℚ) st clean,
      deltaMaxDist ≤ maxDist →
      svpInsertion env kappa blockSize sol maxDist deltaMaxDist st clean = (true, st, clean)) ∧
    (∀ env (delta : ℚ) (numRows fuel : ℕ) par (kappa blockSize : ℕ) st clean,
      (env.lllRes st.nLll).ok = true →
      (env.enumRes st.nEnum).solCoord ≠ [] →
      delta * env.rkk st.nRkk ≤ (env.enumRes st.nEnum).newMaxDist →
      svpReduction env delta numRows fuel [] par kappa blockSize st clean
        = some (true,
            { st with
                nLll := st.nLll + 1
                nRkk := st.nRkk + 1
                nEnum := st.nEnum + 1
                trace := st.trace ++
                  [Event.svpEnter kappa blockSize,
                   Event.lllCall (if hasFlag par.flags BKZ_BOUNDED_LLL = true then (kappa : ℤ) else 0)
                     (kappa : ℤ) ((kappa : ℤ) + (blockSize : ℤ)),
                   Event.enumCall kappa (kappa + blockSize)] },
            if 0 < (env.lllRes st.nLll).nSwaps then false else clean)) := by
  constructor
  · intro env kappa blockSize sol maxDist deltaMaxDist st clean h
    unfold svpInsertion
    rw [if_pos h]
  · intro env delta numRows fuel par kappa blockSize st clean hlll henum hδ
    simp only [svpReduction, svpEnumerate, svpInsertion, emit, recordLLL,
      recordRkk, recordEnum, statusReturn]
    simp [hlll, henum, hδ]

/-- Witness for C6: part (i) at a concrete state, part (ii) on the `envSucc`
oracles (`r_{κ,κ} = 4`, found norm `5`). -/
theorem claim_C6_witness :
    ((1 : ℚ) ≤ 2 ∧
      svpInsertion envBase 0 2 [1] 2 1 (mkState 3) true = (true, mkState 3, true)) ∧
    ((envSucc.lllRes (mkState 3).nLll).ok = true ∧
      (envSucc.enumRes (mkState 3).nEnum).solCoord ≠ [] ∧
      (1 : ℚ) * envSucc.rkk (mkState 3).nRkk ≤ (envSucc.enumRes (mkState 3).nEnum).newMaxDist ∧
      svpReduction envSucc 1 3 2 [] parC3 0 2 (mkState 3) true
        = some (true,
            { mkState 3 with
                nLll := (mkState 3).nLll + 1
                nRkk := (mkState 3).nRkk + 1
                nEnum := (mkState 3).nEnum + 1
                trace := (mkState 3).trace ++
                  [Event.svpEnter 0 2,
                   Event.lllCall (if hasFlag parC3.flags BKZ_BOUNDED_LLL = true then (0 : ℤ) else 0)
                     (0 : ℤ) ((0 : ℤ) + (2 : ℤ)),
                   Event.enumCall 0 (0 + 2)] },
            if 0 < (envSucc.lllRes (mkState 3).nLll).nSwaps then false else true)) :=
  ⟨⟨by norm_num, claim_C6.1 envBase 0 2 [1] 2 1 (mkState 3) true (by norm_num)⟩,
   by decide, by decide, by norm_num [envSucc, envBase, mkState],
   claim_C6.2 envSucc 1 3 2 parC3 0 2 (mkState 3) true (by decide) (by decide)
     (by norm_num [envSucc, envBase, mkState])⟩

/-- C7: when `evaluator.solCoord` is empty after `Enumeration::enumerate`,
`svpReduction` sets the driver status to `RED_ENUM_FAILURE` and returns
`false` (first conjunct: the full result, showing no mutation after the
enumeration call); the failure propagates: a tour whose current block fails
returns `false` at once with the failing block's state, visiting none of the
remaining blocks (second conjunct), and the main loop of `bkz()` then returns
`false` with that state (third conjunct). -/
theorem claim_C7 :
    (∀ env (delta : ℚ) (numRows fuel : ℕ) par (kappa blockSize : ℕ) st clean,
      (env.lllRes st.nLll).ok = true →
      (env.enumRes st.nEnum).solCoord = [] →
      svpReduction env delta numRows fuel [] par kappa blockSize st clean
        = some (false,
            { st with
                status := RED_ENUM_FAILURE
                nLll := st.nLll + 1
                nRkk := st.nRkk + 1
                nEnum := st.nEnum + 1
                trace := st.trace ++
                  [Event.svpEnter kappa blockSize,
                   Event.lllCall (if hasFlag par.flags BKZ_BOUNDED_LLL = true then (kappa : ℤ) else 0)
                     (kappa : ℤ) ((kappa : ℤ) + (blockSize : ℤ)),
                   Event.enumCall kappa (kappa + blockSize)] },
            if 0 < (env.lllRes st.nLll).nSwaps then false else clean)) ∧
    (∀ svp (verbose : Bool) (bs kappa : ℕ) (rest : List ℕ) (maxRow km : ℕ) st clean st1 clean1,
      svp kappa (min bs (maxRow - kappa)) st clean = some (false, st1, clean1) →
      tourGo svp verbose bs (kappa :: rest) maxRow km st clean = some (false, km, st1, clean1)) ∧
    (∀ env (numRows : ℕ) param (chain : List BKZParam) (fuel : ℕ) (t0 : ℚ) (iLoop : ℕ)
        aa (km km1 : ℕ) st st1 clean,
      hasFlag param.flags BKZ_MAX_LOOPS = false →
      hasFlag param.flags BKZ_MAX_TIME = false →
      hasFlag param.flags BKZ_AUTO_ABORT = false →
      bkzLoopRun env param.delta numRows fuel chain param iLoop km 0 numRows st true
        = some (false, km1, st1, clean) →
      bkzMainLoop env numRows param chain (fuel + 1) t0 iLoop aa km st = some (false, st1)) := by
  refine ⟨?_, ?_, ?_⟩
  · intro env delta numRows fuel par kappa blockSize st clean hlll henum
    simp only [svpReduction, svpEnumerate, emit, recordLLL, recordRkk,
      recordEnum, statusReturn]
    simp [hlll, henum, RED_ENUM_FAILURE, RED_SUCCESS]
  · intro svp verbose bs kappa rest maxRow km st clean st1 clean1 h
    simp [tourGo, h]
  · intro env numRows param chain fuel t0 iLoop aa km km1 st st1 clean h1 h2 h3 h4
    simp only [bkzMainLoop, h1, h2, h3]
    simp [h4]

/-- Witness for C7: the `envBase` oracles make every enumeration return an
empty `solCoord`; part (A) at a concrete block, part (B) propagating that
block failure through a tour, part (C) propagating the tour failure through
the main loop. -/
theorem claim_C7_witness :
    ((envBase.lllRes (mkState 3).nLll).ok = true ∧
     (envBase.enumRes (mkState 3).nEnum).solCoord = [] ∧
     svpReduction envBase 1 3 2 [] parC3 0 2 (mkState 3) true
       = some (false,
           { mkState 3 with
               status := RED_ENUM_FAILURE
               nLll := (mkState 3).nLll + 1
               nRkk := (mkState 3).nRkk + 1
               nEnum := (mkState 3).nEnum + 1
               trace := (mkState 3).trace ++
                 [Event.svpEnter 0 2,
                  Event.lllCall (if hasFlag parC3.flags BKZ_BOUNDED_LLL = true then (0 : ℤ) else 0)
                    (0 : ℤ) ((0 : ℤ) + (2 : ℤ)),
                  Event.enumCall 0 (0 + 2)] },
           if 0 < (envBase.lllRes (mkState 3).nLll).nSwaps then false else true)) ∧
    (tourGo (svpReduction envBase 1 3 2 [] parC3) false 2 (0 :: []) 3 0 (mkState 3) true
      = some (false, 0, ⟨3, 5, 1, 1, 1, 0, 0,
          [Event.svpEnter 0 2, Event.lllCall 0 0 2, Event.enumCall 0 2]⟩, true)) ∧
    (bkzMainLoop envBase 3 parC3 [] (2 + 1) 0 0 freshAutoAbort 0 (mkState 3)
      = some (false, ⟨3, 5, 1, 1, 1, 0, 0,
          [Event.tourEnter 0 3, Event.svpEnter 0 2, Event.lllCall 0 0 2,
           Event.enumCall 0 2]⟩)) :=
  ⟨⟨by decide, by decide,
    claim_C7.1 envBase 1 3 2 parC3 0 2 (mkState 3) true (by decide) (by decide)⟩,
   claim_C7.2.1 (svpReduction envBase 1 3 2 [] parC3) false 2 0 [] 3 0 (mkState 3) true
     ⟨3, 5, 1, 1, 1, 0, 0, [Event.svpEnter 0 2, Event.lllCall 0 0 2, Event.enumCall 0 2]⟩ true
     (by simp [svpReduction, svpEnumerate, emit, recordLLL, recordRkk, recordEnum,
       statusReturn, envBase, parC3, mkState, hasFlag, RED_SUCCESS, RED_ENUM_FAILURE,
       BKZ_BOUNDED_LLL]),
   claim_C7.2.2 envBase 3 parC3 [] 2 0 0 freshAutoAbort 0 0 (mkState 3)
     ⟨3, 5, 1, 1, 1, 0, 0,
       [Event.tourEnter 0 3, Event.svpEnter 0 2, Event.lllCall 0 0 2, Event.enumCall 0 2]⟩ true
     (by decide) (by decide) (by decide)
     (by simp [bkzLoopRun, tourGo, bkzKappas, svpReduction, svpEnumerate, emit,
       recordLLL, recordRkk, recordEnum, statusReturn, envBase, parC3, mkState, hasFlag,
       RED_SUCCESS, RED_ENUM_FAILURE, BKZ_BOUNDED_LLL, BKZ_VERBOSE, List.range'])⟩

/-! ## Invariant lemmas for the driver functions -/

/-- The insertion step: its trace only grows, a `true` return leaves the GSO
row count unchanged (the transient row of the general case is removed), and
the returned boolean equals `status == RED_SUCCESS` on exit when the status
was `RED_SUCCESS` on entry.  The LLL contract rules out the general-case
failure path returning `true` with the transient row still present. -/
theorem svpInsertion_inv (env : Env) (kappa blockSize : ℕ) (sol : List ℤ)
    (maxDist deltaMaxDist : ℚ) (st : DriverState) (clean : Bool)
    (hc : LLLContract env) (ok : Bool) (st1 : DriverState) (clean1 : Bool)
    (h : svpInsertion env kappa blockSize sol maxDist deltaMaxDist st clean
      = (ok, st1, clean1)) :
    (∃ t, st1.trace = st.trace ++ t) ∧ (ok = true → st1.d = st.d) ∧
    (st.status = RED_SUCCESS → (ok = true ↔ st1.status = RED_SUCCESS)) := by
  simp only [svpInsertion, statusReturn] at h
  split at h
  · simp only [Prod.mk.injEq] at h
    obtain ⟨rfl, rfl, rfl⟩ := h
    exact ⟨⟨[], by simp⟩, fun _ => rfl, fun h0 => by simp [h0]⟩
  · split at h
    · split at h
      · simp only [Prod.mk.injEq] at h
        obtain ⟨rfl, rfl, rfl⟩ := h
        refine ⟨⟨[Event.moveRow ((kappa : ℤ) + (classify sol blockSize).2) (kappa : ℤ),
          Event.sizeRedCall (kappa : ℤ) ((kappa : ℤ) + 1)], ?_⟩, fun _ => ?_, fun h0 => ?_⟩
        · simp [emit, recordSizeRed]
        · simp [emit, recordSizeRed]
        · simp [emit, recordSizeRed]
      · simp only [Prod.mk.injEq] at h
        obtain ⟨rfl, rfl, rfl⟩ := h
        refine ⟨⟨[Event.moveRow ((kappa : ℤ) + (classify sol blockSize).2) (kappa : ℤ),
          Event.sizeRedCall (kappa : ℤ) ((kappa : ℤ) + 1)], ?_⟩, fun _ => ?_, fun h0 => ?_⟩
        · simp [emit, recordSizeRed]
        · simp [emit, recordSizeRed]
        · simp [emit, recordSizeRed, h0]
    · split at h
      next hr3 =>
        simp only [Prod.mk.injEq] at h
        obtain ⟨rfl, rfl, rfl⟩ := h
        refine ⟨⟨Event.createRow :: Event.rowOpBegin (st.d : ℤ) ((st.d : ℤ) + 1) ::
          ((List.range blockSize).map fun (i : ℕ) =>
            Event.rowAddmul (st.d : ℤ) ((kappa : ℤ) + (i : ℤ)) (sol.getD i 0)) ++
          [Event.rowOpEnd (st.d : ℤ) ((st.d : ℤ) + 1),
           Event.moveRow (st.d : ℤ) (kappa : ℤ),
           Event.lllCall (kappa : ℤ) (kappa : ℤ) ((kappa : ℤ) + (blockSize : ℤ) + 1)], ?_⟩,
          fun hok => ?_, fun h0 => ?_⟩
        · simp [emit, emitAll, recordLLL]
        · simp only [decide_eq_true_eq] at hok
          exact absurd hok (hc _ hr3)
        · simp [emit, emitAll, recordLLL]
      next hr3 =>
        simp only [Prod.mk.injEq] at h
        obtain ⟨rfl, rfl, rfl⟩ := h
        refine ⟨⟨Event.createRow :: Event.rowOpBegin (st.d : ℤ) ((st.d : ℤ) + 1) ::
          ((List.range blockSize).map fun (i : ℕ) =>
            Event.rowAddmul (st.d : ℤ) ((kappa : ℤ) + (i : ℤ)) (sol.getD i 0)) ++
          [Event.rowOpEnd (st.d : ℤ) ((st.d : ℤ) + 1),
           Event.moveRow (st.d : ℤ) (kappa : ℤ),
           Event.lllCall (kappa : ℤ) (kappa : ℤ) ((kappa : ℤ) + (blockSize : ℤ) + 1),
           Event.moveRow ((kappa : ℤ) + (blockSize : ℤ)) (st.d : ℤ),
           Event.removeLastRow], ?_⟩, fun _ => ?_, fun h0 => ?_⟩
        · simp [emit, emitAll, recordLLL]
        · simp [emit, emitAll, recordLLL]
        · simp [emit, emitAll, recordLLL, h0]

/-- Steps C/D combined: same invariant package as `svpInsertion_inv`. -/
theorem svpEnumerate_inv (env : Env) (delta : ℚ) (kappa blockSize : ℕ)
    (st : DriverState) (clean : Bool) (hc : LLLContract env)
    (ok : Bool) (st1 : DriverState) (clean1 : Bool)
    (h : svpEnumerate env delta kappa blockSize st clean = (ok, st1, clean1)) :
    (∃ t, st1.trace = st.trace ++ t) ∧ (ok = true → st1.d = st.d) ∧
    (st.status = RED_SUCCESS → (ok = true ↔ st1.status = RED_SUCCESS)) := by
  simp only [svpEnumerate, statusReturn] at h
  split at h
  · simp only [Prod.mk.injEq] at h
    obtain ⟨rfl, rfl, rfl⟩ := h
    refine ⟨⟨[Event.enumCall kappa (kappa + blockSize)], ?_⟩, fun _ => ?_, fun h0 => ?_⟩
    · simp [recordRkk, recordEnum]
    · simp [recordRkk, recordEnum]
    · simp [recordRkk, recordEnum, RED_ENUM_FAILURE, RED_SUCCESS]
  · have h5 := svpInsertion_inv env kappa blockSize _ _ _ _ _ hc ok st1 clean1 h
    obtain ⟨⟨t, ht⟩, hd, hst⟩ := h5
    refine ⟨⟨Event.enumCall kappa (kappa + blockSize) :: t, ?_⟩, fun hok => ?_, fun h0 => ?_⟩
    · rw [ht]; simp [recordRkk, recordEnum]
    · rw [hd hok]; simp [recordRkk, recordEnum]
    · exact hst (by simpa [recordRkk, recordEnum] using h0)

/-- A tour sweep inherits the invariant package from its block reducer. -/
theorem tourGo_inv (svp : ℕ → ℕ → DriverState → Bool → Option (Bool × DriverState × Bool))
    (verbose : Bool) (bs : ℕ) (hsvp : SvpInv svp) :
    ∀ (ks : List ℕ) (maxRow km : ℕ) (st : DriverState) (clean ok : Bool)
      (km1 : ℕ) (st1 : DriverState) (clean1 : Bool),
      tourGo svp verbose bs ks maxRow km st clean = some (ok, km1, st1, clean1) →
      (∃ t, st1.trace = st.trace ++ t) ∧ (ok = true → st1.d = st.d) ∧
      (st.status = RED_SUCCESS → (ok = true ↔ st1.status = RED_SUCCESS)) := by
  intro ks
  induction ks with
  | nil =>
    intro maxRow km st clean ok km1 st1 clean1 h
    simp only [tourGo, Option.some.injEq, Prod.mk.injEq] at h
    obtain ⟨rfl, rfl, rfl, rfl⟩ := h
    exact ⟨⟨[], by simp⟩, fun _ => rfl, fun h0 => by simp [h0]⟩
  | cons kappa rest ih =>
    intro maxRow km st clean ok km1 st1 clean1 h
    rw [tourGo] at h
    cases hs : svp kappa (min bs (maxRow - kappa)) st clean with
    | none => rw [hs] at h; exact absurd h (by simp)
    | some res =>
      obtain ⟨ok0, st0, clean0⟩ := res
      rw [hs] at h
      obtain ⟨⟨t0, ht0⟩, hd0, hst0⟩ := hsvp _ _ _ _ _ _ _ hs
      simp only at h
      by_cases hok : ok0 = false
      · rw [if_pos hok] at h
        simp only [Option.some.injEq, Prod.mk.injEq] at h
        obtain ⟨rfl, rfl, rfl, rfl⟩ := h
        subst hok
        refine ⟨⟨Event.svpEnter kappa (min bs (maxRow - kappa)) :: t0, ht0⟩, ?_, ?_⟩
        · intro hok1; exact absurd hok1 (by simp)
        · intro h0
          constructor
          · intro hok1; exact absurd hok1 (by simp)
          · intro hst1
            exact absurd ((hst0 h0).mpr hst1) (by simp)
      · rw [if_neg hok] at h
        have hok' : ok0 = true := by cases ok0 <;> simp_all
        obtain ⟨⟨t1, ht1⟩, hd1, hst1⟩ := ih maxRow _ st0 clean0 ok km1 st1 clean1 h
        have hst0' : st0.status = st.status ∨ st.status ≠ RED_SUCCESS := by
          by_cases h0 : st.status = RED_SUCCESS
          · exact Or.inl (((hst0 h0).mp hok').trans h0.symm)
          · exact Or.inr h0
        refine ⟨⟨Event.svpEnter kappa (min bs (maxRow - kappa)) :: t0 ++ t1, ?_⟩,
          fun hok1 => ?_, fun h0 => ?_⟩
        · rw [ht1, ht0]; simp
        · rw [hd1 hok1, hd0 hok']
        · have h00 : st0.status = RED_SUCCESS := (hst0 h0).mp hok'
          simpa [h00] using hst1 h00

/-- The preprocessing loop inherits the invariant package from its tour
function. -/
theorem preprocAux_inv (env : Env) (flags : ℕ) (maxLoops : ℤ) (maxTime scale : ℚ)
    (maxNoDec : ℤ)
    (tour : ℕ → ℕ → DriverState → Option (Bool × ℕ × DriverState × Bool))
    (htour : TourInv tour) :
    ∀ (fuel : ℕ) (t0 : ℚ) (i : ℕ) (aa : AutoAbortState) (km : ℕ)
      (st : DriverState) (clean cont : Bool) (st1 : DriverState) (clean1 : Bool),
      preprocAux env flags maxLoops maxTime scale maxNoDec tour fuel t0 i aa km st clean
        = some (cont, st1, clean1) →
      (∃ t, st1.trace = st.trace ++ t) ∧ (cont = true → st1.d = st.d) ∧
      (st.status = RED_SUCCESS → (cont = true ↔ st1.status = RED_SUCCESS)) := by
  intro fuel
  induction fuel with
  | zero =>
    intro t0 i aa km st clean cont st1 clean1 h
    rw [preprocAux] at h
    exact absurd h (by simp)
  | succ fuel ih =>
    intro t0 i aa km st clean cont st1 clean1 h
    simp only [preprocAux] at h
    set stT := (if hasFlag flags BKZ_MAX_TIME = true then recordClock st else st) with hstT
    have hT_trace : stT.trace = st.trace := by
      rw [hstT]; split <;> simp [recordClock]
    have hT_d : stT.d = st.d := by
      rw [hstT]; split <;> simp [recordClock]
    have hT_status : stT.status = st.status := by
      rw [hstT]; split <;> simp [recordClock]
    split at h
    · simp only [Option.some.injEq, Prod.mk.injEq] at h
      obtain ⟨rfl, rfl, rfl⟩ := h
      exact ⟨⟨[], by simp⟩, fun _ => rfl, fun h0 => by simp [h0]⟩
    · split at h
      · simp only [Option.some.injEq, Prod.mk.injEq] at h
        obtain ⟨rfl, rfl, rfl⟩ := h
        exact ⟨⟨[], by simp [hT_trace]⟩, fun _ => hT_d, fun h0 => by simp [hT_status, h0]⟩
      · split at h
        · simp only [Option.some.injEq, Prod.mk.injEq] at h
          obtain ⟨rfl, rfl, rfl⟩ := h
          refine ⟨⟨[], by simp [recordSlope, hT_trace]⟩, fun _ => by simp [recordSlope, hT_d],
            fun h0 => by simp [recordSlope, hT_status, h0]⟩
        · cases ht : tour i km (recordSlope stT) with
          | none => rw [ht] at h; exact absurd h (by simp)
          | some res =>
            obtain ⟨ok0, km0, st0, clean0⟩ := res
            rw [ht] at h
            obtain ⟨⟨tt, htt⟩, htd, hts⟩ := htour _ _ _ _ _ _ _ ht
            have hS_trace : (recordSlope stT).trace = st.trace := by simp [recordSlope, hT_trace]
            have hS_d : (recordSlope stT).d = st.d := by simp [recordSlope, hT_d]
            have hS_status : (recordSlope stT).status = st.status := by
              simp [recordSlope, hT_status]
            simp only at h
            split at h
            next hok0 =>
              simp only [Option.some.injEq, Prod.mk.injEq] at h
              obtain ⟨rfl, rfl, rfl⟩ := h
              refine ⟨⟨tt, by rw [htt, hS_trace]⟩, fun hok1 => absurd hok1 (by simp),
                fun h0 => ?_⟩
              constructor
              · intro hok1; exact absurd hok1 (by simp)
              · intro hst1
                have := (hts (hS_status.trans h0)).mpr hst1
                simp [hok0] at this
            next hok0 =>
              have hok0' : ok0 = true := by cases ok0 <;> simp_all
              split at h
              · simp only [Option.some.injEq, Prod.mk.injEq] at h
                obtain ⟨rfl, rfl, rfl⟩ := h
                refine ⟨⟨tt, by rw [htt, hS_trace]⟩,
                  fun _ => by rw [htd hok0', hS_d], fun h0 => ?_⟩
                have h00 := (hts (hS_status.trans h0)).mp hok0'
                simp [h00]
              · obtain ⟨⟨t2, ht2⟩, hd2, hst2⟩ := ih t0 (i + 1) _ km0 st0 clean0 cont st1 clean1 h
                refine ⟨⟨tt ++ t2, by rw [ht2, htt, hS_trace, List.append_assoc]⟩,
                  fun hok1 => by rw [hd2 hok1, htd hok0', hS_d], fun h0 => ?_⟩
                have h00 := (hts (hS_status.trans h0)).mp hok0'
                exact hst2 h00

/-- Master invariant of `svpReduction`, for every preprocessing chain:
assuming the LLL collaborator contract, every return extends the trace behind
its own `svpEnter` event, every `true` return preserves the GSO row count,
and the returned boolean equals `status == RED_SUCCESS` on exit whenever the
status was `RED_SUCCESS` on entry. -/
theorem svpReduction_inv (env : Env) (delta : ℚ) (numRows fuel : ℕ)
    (hc : LLLContract env) :
    ∀ (chain : List BKZParam) (par : BKZParam),
      SvpInv (svpReduction env delta numRows fuel chain par) := by
  intro chain
  induction chain with
  | nil =>
    intro par kappa blockSize st clean ok st1 clean1 h
    simp only [svpReduction] at h
    split at h
    · simp only [statusReturn, Option.some.injEq, Prod.mk.injEq] at h
      obtain ⟨rfl, rfl, rfl⟩ := h
      refine ⟨⟨[Event.lllCall (if hasFlag par.flags BKZ_BOUNDED_LLL = true then (kappa : ℤ) else 0)
        (kappa : ℤ) ((kappa : ℤ) + (blockSize : ℤ))], ?_⟩, fun _ => ?_, fun h0 => ?_⟩
      · simp [emit, recordLLL]
      · simp [emit, recordLLL]
      · simp [emit, recordLLL]
    · rw [Option.some.injEq] at h
      obtain ⟨⟨t, htr⟩, hd, hst⟩ :=
        svpEnumerate_inv env delta kappa blockSize _ _ hc ok st1 clean1 h
      refine ⟨⟨Event.lllCall (if hasFlag par.flags BKZ_BOUNDED_LLL = true then (kappa : ℤ) else 0)
        (kappa : ℤ) ((kappa : ℤ) + (blockSize : ℤ)) :: t, ?_⟩, fun hok => ?_, fun h0 => ?_⟩
      · rw [htr]; simp [emit, recordLLL]
      · rw [hd hok]; simp [emit, recordLLL]
      · exact hst (by simpa [emit, recordLLL] using h0)
  | cons preproc rest ih =>
    intro par kappa blockSize st clean ok st1 clean1 h
    simp only [svpReduction] at h
    split at h
    · simp only [statusReturn, Option.some.injEq, Prod.mk.injEq] at h
      obtain ⟨rfl, rfl, rfl⟩ := h
      refine ⟨⟨[Event.lllCall (if hasFlag par.flags BKZ_BOUNDED_LLL = true then (kappa : ℤ) else 0)
        (kappa : ℤ) ((kappa : ℤ) + (blockSize : ℤ))], ?_⟩, fun _ => ?_, fun h0 => ?_⟩
      · simp [emit, recordLLL]
      · simp [emit, recordLLL]
      · simp [emit, recordLLL]
    · have htour : TourInv (fun _i km s =>
          tourGo (svpReduction env delta numRows fuel rest preproc)
            (hasFlag preproc.flags BKZ_VERBOSE) preproc.blockSize
            (bkzKappas kappa (kappa + blockSize)) (kappa + blockSize) km
            (emit s (Event.tourEnter kappa (kappa + blockSize))) true) := by
        intro i km s ok' km1 s1 c1 h'
        obtain ⟨⟨t, htr⟩, hd, hst⟩ :=
          tourGo_inv _ _ _ (ih preproc) _ _ _ _ _ _ _ _ _ h'
        refine ⟨⟨Event.tourEnter kappa (kappa + blockSize) :: t, ?_⟩, fun hk => ?_,
          fun h0 => ?_⟩
        · rw [htr]; simp [emit]
        · rw [hd hk]; simp [emit]
        · exact hst (by simpa [emit] using h0)
      split at h
      · split at h
        · exact absurd h (by simp)
        next cont st4 clean2 heq =>
          obtain ⟨⟨tp, htp⟩, hdp, hsp⟩ :=
            preprocAux_inv env par.flags par.maxLoops par.maxTime par.autoAbortScale
              par.autoAbortMaxNoDec _ htour _ _ _ _ _ _ _ _ _ _ heq
          split at h
          next hcont =>
            simp only [Option.some.injEq, Prod.mk.injEq] at h
            obtain ⟨rfl, rfl, rfl⟩ := h
            refine ⟨⟨Event.lllCall (if hasFlag par.flags BKZ_BOUNDED_LLL = true then (kappa : ℤ) else 0)
              (kappa : ℤ) ((kappa : ℤ) + (blockSize : ℤ)) :: tp, ?_⟩,
              fun hok => absurd hok (by simp), fun h0 => ?_⟩
            · rw [htp]; simp [emit, recordLLL, recordClock]
            · constructor
              · intro hok; exact absurd hok (by simp)
              · intro hst1
                have h4 := (hsp (by simpa [emit, recordLLL, recordClock] using h0)).mpr hst1
                simp [hcont] at h4
          next hcont =>
            have hcont' : cont = true := by cases cont <;> simp_all
            rw [Option.some.injEq] at h
            obtain ⟨⟨t, htr⟩, hd, hst⟩ :=
              svpEnumerate_inv env delta kappa blockSize _ _ hc ok st1 clean1 h
            have h4tr : st4.trace = st.trace ++ Event.svpEnter kappa blockSize ::
                Event.lllCall (if hasFlag par.flags BKZ_BOUNDED_LLL = true then (kappa : ℤ) else 0)
                  (kappa : ℤ) ((kappa : ℤ) + (blockSize : ℤ)) :: tp := by
              rw [htp]; simp [emit, recordLLL, recordClock]
            refine ⟨⟨Event.lllCall (if hasFlag par.flags BKZ_BOUNDED_LLL = true then (kappa : ℤ) else 0)
              (kappa : ℤ) ((kappa : ℤ) + (blockSize : ℤ)) :: tp ++ t, ?_⟩,
              fun hok => ?_, fun h0 => ?_⟩
            · rw [htr, h4tr]; simp
            · rw [hd hok, hdp hcont']
              simp [emit, recordLLL, recordClock]
            · have h40 : st4.status = RED_SUCCESS :=
                (hsp (by simpa [emit, recordLLL, recordClock] using h0)).mp hcont'
              exact hst h40
      · rw [Option.some.injEq] at h
        obtain ⟨⟨t, htr⟩, hd, hst⟩ :=
          svpEnumerate_inv env delta kappa blockSize _ _ hc ok st1 clean1 h
        refine ⟨⟨Event.lllCall (if hasFlag par.flags BKZ_BOUNDED_LLL = true then (kappa : ℤ) else 0)
          (kappa : ℤ) ((kappa : ℤ) + (blockSize : ℤ)) :: t, ?_⟩, fun hok => ?_, fun h0 => ?_⟩
        · rw [htr]; simp [emit, recordLLL]
        · rw [hd hok]; simp [emit, recordLLL]
        · exact hst (by simpa [emit, recordLLL] using h0)

/-- Master invariant of the main loop of `bkz()`: from a `RED_SUCCESS` state,
the returned boolean equals `status == RED_SUCCESS` on exit, and a `true`
return preserves the GSO row count. -/
theorem bkzMainLoop_inv (env : Env) (numRows : ℕ) (param : BKZParam)
    (chain : List BKZParam) (hc : LLLContract env) :
    ∀ (fuel : ℕ) (t0 : ℚ) (iLoop : ℕ) (aa : AutoAbortState) (km : ℕ)
      (st : DriverState) (b : Bool) (st1 : DriverState),
      bkzMainLoop env numRows param chain fuel t0 iLoop aa km st = some (b, st1) →
      st.status = RED_SUCCESS →
      (b = true ↔ st1.status = RED_SUCCESS) ∧ (b = true → st1.d = st.d) := by
  intro fuel
  induction fuel with
  | zero =>
    intro t0 iLoop aa km st b st1 h h0
    rw [bkzMainLoop] at h
    exact absurd h (by simp)
  | succ fuel ih =>
    intro t0 iLoop aa km st b st1 h h0
    simp only [bkzMainLoop] at h
    set stT := (if hasFlag param.flags BKZ_MAX_TIME = true then recordClock st else st) with hstT
    have hT_d : stT.d = st.d := by rw [hstT]; split <;> simp [recordClock]
    have hT_status : stT.status = st.status := by rw [hstT]; split <;> simp [recordClock]
    set stA := (if hasFlag param.flags BKZ_AUTO_ABORT = true then recordSlope stT else stT) with hstA
    have hA_d : stA.d = st.d := by rw [hstA]; split <;> simp [recordSlope, hT_d]
    have hA_status : stA.status = st.status := by rw [hstA]; split <;> simp [recordSlope, hT_status]
    split at h
    · simp only [setStatus, Option.some.injEq, Prod.mk.injEq] at h
      obtain ⟨rfl, rfl⟩ := h
      refine ⟨?_, fun hb => absurd hb (by simp [RED_BKZ_LOOPS_LIMIT, RED_SUCCESS])⟩
      simp [RED_BKZ_LOOPS_LIMIT, RED_SUCCESS]
    · split at h
      · simp only [setStatus, Option.some.injEq, Prod.mk.injEq] at h
        obtain ⟨rfl, rfl⟩ := h
        refine ⟨?_, fun hb => absurd hb (by simp [RED_BKZ_TIME_LIMIT, RED_SUCCESS])⟩
        simp [RED_BKZ_TIME_LIMIT, RED_SUCCESS]
      · split at h
        · simp only [setStatus, Option.some.injEq, Prod.mk.injEq] at h
          obtain ⟨rfl, rfl⟩ := h
          exact ⟨by simp, fun _ => hA_d⟩
        · cases hr : bkzLoopRun env param.delta numRows fuel chain param iLoop km 0 numRows stA true with
          | none => rw [hr] at h; exact absurd h (by simp)
          | some res =>
            obtain ⟨ok0, km0, st0, clean0⟩ := res
            rw [hr] at h
            rw [bkzLoopRun] at hr
            obtain ⟨⟨tt, htt⟩, htd, hts⟩ :=
              tourGo_inv _ _ _ (svpReduction_inv env param.delta numRows fuel hc chain param)
                _ _ _ _ _ _ _ _ _ hr
            have hts' := hts (by simp [emit, hA_status, h0])
            simp only at h
            split at h
            next hok =>
              simp only [Option.some.injEq, Prod.mk.injEq] at h
              obtain ⟨rfl, rfl⟩ := h
              refine ⟨?_, fun hb => absurd hb (by simp)⟩
              constructor
              · intro hb; exact absurd hb (by simp)
              · intro hs1; exact absurd (hts'.mpr hs1) (by simp [hok])
            next hok =>
              have hok' : ok0 = true := by cases ok0 <;> simp_all
              have hd0 : st0.d = st.d := by rw [htd hok']; simp [emit, hA_d]
              have hs0 : st0.status = RED_SUCCESS := hts'.mp hok'
              split at h
              · simp only [setStatus, Option.some.injEq, Prod.mk.injEq] at h
                obtain ⟨rfl, rfl⟩ := h
                exact ⟨by simp, fun _ => by simpa using hd0⟩
              · obtain ⟨hiff, hd⟩ := ih t0 (iLoop + 1) _ km0 st0 b st1 h hs0
                exact ⟨hiff, fun hb => (hd hb).trans hd0⟩

/-- Master invariant of `bkz()`: from a `RED_SUCCESS` state the returned
boolean equals `status == RED_SUCCESS` on exit, and a `true` return preserves
the GSO row count. -/
theorem bkz_inv (env : Env) (numRows : ℕ) (param : BKZParam) (chain : List BKZParam)
    (hc : LLLContract env) (fuel : ℕ) (st : DriverState) (b : Bool) (st1 : DriverState)
    (h : bkz env numRows param chain fuel st = some (b, st1))
    (h0 : st.status = RED_SUCCESS) :
    (b = true ↔ st1.status = RED_SUCCESS) ∧ (b = true → st1.d = st.d) := by
  simp only [bkz] at h
  split at h
  · simp only [setStatus, Option.some.injEq, Prod.mk.injEq] at h
    obtain ⟨rfl, rfl⟩ := h
    exact ⟨by simp, fun _ => rfl⟩
  · obtain ⟨hiff, hd⟩ := bkzMainLoop_inv env numRows param chain hc fuel _ 0 freshAutoAbort 0 _
      b st1 h (by simp [emit, recordClock, h0])
    exact ⟨hiff, fun hb => by rw [hd hb]; simp [emit, recordClock]⟩

/-- The trivial oracles satisfy the LLL collaborator contract. -/
theorem envBase_contract : LLLContract envBase := by
  intro k h
  simp [envBase] at h

/-- The `envSucc` oracles satisfy the LLL collaborator contract. -/
theorem envSucc_contract : LLLContract envSucc := by
  intro k h
  simp [envSucc, envBase] at h

/-- C4 counterexample: the claim says the row count is preserved on *every*
exit, including failure exits.  Under `envC4` the general insertion case runs
`createRow` and then the inner LLL call fails: `svpReduction` returns `false`
with `m.d = 6` while it was `5` on entry — the transient row is not removed
on that failure path. -/
theorem claim_C4_counterexample :
    (svpReduction envC4 1 5 3 [] parC3 0 2 (mkState 5) true).map
      (fun r => (r.1, r.2.1.d)) = some (false, 6) ∧ (mkState 5).d = 5 := by
  constructor
  · simp [svpReduction, svpEnumerate, svpInsertion, classify, classifyStep,
      emit, emitAll, recordLLL, recordSizeRed, recordEnum, recordRkk,
      statusReturn, setStatus, envC4, envBase, parC3, mkState, hasFlag,
      List.range_succ, RED_SUCCESS, RED_LLL_FAILURE, BKZ_BOUNDED_LLL]
  · rfl

/-- C4 (amended): assuming the LLL collaborator contract, every call to
`svpReduction` and to `bkz()` that returns `true` leaves the GSO row count
`m.d` unchanged — in particular the transient `(d+1)`-th row of the
augment-then-collapse general case is removed before every successful return.
(On a failure exit the count can exceed the entry count by one, exactly when
the inner LLL call of the general case fails; see the counterexample.) -/
theorem claim_C4_amended :
    (∀ env (delta : ℚ) (numRows fuel : ℕ) (chain : List BKZParam) par
        (kappa blockSize : ℕ) st clean st1 clean1,
      LLLContract env →
      svpReduction env delta numRows fuel chain par kappa blockSize st clean
        = some (true, st1, clean1) →
      st1.d = st.d) ∧
    (∀ env (numRows : ℕ) param (chain : List BKZParam) (fuel : ℕ) st st1,
      LLLContract env → st.status = RED_SUCCESS →
      bkz env numRows param chain fuel st = some (true, st1) →
      st1.d = st.d) := by
  constructor
  · intro env delta numRows fuel chain par kappa blockSize st clean st1 clean1 hc h
    exact (svpReduction_inv env delta numRows fuel hc chain par _ _ _ _ _ _ _ h).2.1 rfl
  · intro env numRows param chain fuel st st1 hc h0 h
    exact (bkz_inv env numRows param chain hc fuel st true st1 h h0).2 rfl

/-- Witness for C4's amended theorem: a successful `svpReduction` and a
successful `bkz` run under the `envSucc` oracles, both ending with `d = 3` as
on entry. -/
theorem claim_C4_witness :
    ((⟨3, 0, 1, 1, 1, 0, 0,
        [Event.svpEnter 0 2, Event.lllCall 0 0 2, Event.enumCall 0 2]⟩ : DriverState).d
      = (mkState 3).d) ∧
    ((⟨3, 0, 2, 2, 2, 0, 1,
        [Event.discoverAllRows, Event.tourEnter 0 3, Event.svpEnter 0 2,
         Event.lllCall 0 0 2, Event.enumCall 0 2, Event.svpEnter 1 2,
         Event.lllCall 0 1 3, Event.enumCall 1 3]⟩ : DriverState).d
      = (mkState 3).d) :=
  ⟨claim_C4_amended.1 envSucc 1 3 2 [] parC3 0 2 (mkState 3) true _ true envSucc_contract
     (by simp [svpReduction, svpEnumerate, svpInsertion, classify, classifyStep,
       emit, emitAll, recordLLL, recordEnum, recordRkk, statusReturn,
       envSucc, envBase, parC3, mkState, hasFlag, List.range_succ,
       RED_SUCCESS, BKZ_BOUNDED_LLL]; norm_num),
   claim_C4_amended.2 envSucc 3 parC3 [] (4 + 1) (mkState 3) _ envSucc_contract rfl
     (by
       have h0f : ∀ f, hasFlag 0 f = false := fun f => by
         have hz : Nat.land 0 f = 0 := Nat.zero_and f
         simp [hasFlag, hz]
       simp [bkz, bkzMainLoop, bkzLoopRun, tourGo, bkzKappas, List.range',
         svpReduction, svpEnumerate, svpInsertion, classify, classifyStep,
         emit, emitAll, recordLLL, recordEnum, recordRkk, recordClock, recordSlope,
         statusReturn, setStatus, envSucc, envBase, parC3, mkState, h0f,
         List.range_succ, RED_SUCCESS]
       norm_num)⟩

/-- C10: during a single `bkz()` invocation, assuming the LLL collaborator
contract (a failing LLL call records a non-success status), the boolean
returned by every driver operation equals `status == RED_SUCCESS` at the
moment of return: the constructor initialises the status to `RED_SUCCESS`
(first conjunct), and `svpReduction`, `bkzLoop` and `bkz` each return `true`
exactly when the status on exit is `RED_SUCCESS`, starting from a
`RED_SUCCESS` state (remaining conjuncts; every `false` return goes through
`setStatus` with a non-success code, every status change goes through
`setStatus`). -/
theorem claim_C10 :
    (∀ d, (mkState d).status = RED_SUCCESS) ∧
    (∀ env (delta : ℚ) (numRows fuel : ℕ) (chain : List BKZParam) par
        (kappa blockSize : ℕ) st clean ok st1 clean1,
      LLLContract env → st.status = RED_SUCCESS →
      svpReduction env delta numRows fuel chain par kappa blockSize st clean
        = some (ok, st1, clean1) →
      (ok = true ↔ st1.status = RED_SUCCESS)) ∧
    (∀ env (delta : ℚ) (numRows fuel : ℕ) (chain : List BKZParam) par
        (loop km minRow maxRow : ℕ) st clean ok km1 st1 clean1,
      LLLContract env → st.status = RED_SUCCESS →
      bkzLoopRun env delta numRows fuel chain par loop km minRow maxRow st clean
        = some (ok, km1, st1, clean1) →
      (ok = true ↔ st1.status = RED_SUCCESS)) ∧
    (∀ env (numRows : ℕ) param (chain : List BKZParam) (fuel : ℕ) st b st1,
      LLLContract env → st.status = RED_SUCCESS →
      bkz env numRows param chain fuel st = some (b, st1) →
      (b = true ↔ st1.status = RED_SUCCESS)) := by
  refine ⟨fun _ => rfl, ?_, ?_, ?_⟩
  · intro env delta numRows fuel chain par kappa blockSize st clean ok st1 clean1 hc h0 h
    exact (svpReduction_inv env delta numRows fuel hc chain par _ _ _ _ _ _ _ h).2.2 h0
  · intro env delta numRows fuel chain par loop km minRow maxRow st clean ok km1 st1 clean1 hc h0 h
    rw [bkzLoopRun] at h
    exact (tourGo_inv _ _ _ (svpReduction_inv env delta numRows fuel hc chain par)
      _ _ _ _ _ _ _ _ _ h).2.2 (by simp [emit, h0])
  · intro env numRows param chain fuel st b st1 hc h0 h
    exact (bkz_inv env numRows param chain hc fuel st b st1 h h0).1

/-- Witness for C10: a `bkz` run that stops on the loops cap returns `false`
with status `RED_BKZ_LOOPS_LIMIT`, and the returned boolean indeed equals
`status == RED_SUCCESS`. -/
theorem claim_C10_witness :
    LLLContract envBase ∧ (mkState 3).status = RED_SUCCESS ∧
    (false = true ↔
      (⟨3, 8, 0, 0, 0, 0, 1, [Event.discoverAllRows]⟩ : DriverState).status = RED_SUCCESS) :=
  ⟨envBase_contract, rfl,
   claim_C10.2.2.2 envBase 3 parC1 [] 5 (mkState 3) false
     ⟨3, 8, 0, 0, 0, 0, 1, [Event.discoverAllRows]⟩ envBase_contract rfl (by decide)⟩

/-- C8: a single tour sweeps `kappa` over exactly the values `minRow` through
`maxRow - 2` inclusive (first conjunct: membership in the swept range; second:
no block ever starts at `maxRow - 1`); the sweep is `tourGo` over
`bkzKappas minRow maxRow` (third conjunct, the definition of `bkzLoop`); at
each `kappa` a block of size `min(par.blockSize, maxRow - kappa)` is reduced,
the first failure is propagated at once with no further blocks (fourth
conjunct), and on block success the sweep continues with the next `kappa`
(fifth conjunct). -/
theorem claim_C8 :
    (∀ (minRow maxRow kappa : ℕ),
      kappa ∈ bkzKappas minRow maxRow ↔ (minRow ≤ kappa ∧ kappa + 2 ≤ maxRow)) ∧
    (∀ (minRow maxRow : ℕ), (maxRow - 1) ∉ bkzKappas minRow maxRow) ∧
    (∀ env (delta : ℚ) (numRows fuel : ℕ) (chain : List BKZParam) par
        (loop km minRow maxRow : ℕ) st clean,
      bkzLoopRun env delta numRows fuel chain par loop km minRow maxRow st clean
        = tourGo (svpReduction env delta numRows fuel chain par)
            (hasFlag par.flags BKZ_VERBOSE) par.blockSize (bkzKappas minRow maxRow)
            maxRow km (emit st (Event.tourEnter minRow maxRow)) clean) ∧
    (∀ svp (verbose : Bool) (bs kappa : ℕ) (rest : List ℕ) (maxRow km : ℕ) st clean st1 clean1,
      svp kappa (min bs (maxRow - kappa)) st clean = some (false, st1, clean1) →
      tourGo svp verbose bs (kappa :: rest) maxRow km st clean = some (false, km, st1, clean1)) ∧
    (∀ svp (verbose : Bool) (bs kappa : ℕ) (rest : List ℕ) (maxRow km : ℕ) st clean st1 clean1,
      svp kappa (min bs (maxRow - kappa)) st clean = some (true, st1, clean1) →
      tourGo svp verbose bs (kappa :: rest) maxRow km st clean
        = tourGo svp verbose bs rest maxRow
            (if verbose = true ∧ km < kappa ∧ clean1 = true then kappa else km) st1 clean1) := by
  refine ⟨?_, ?_, ?_, ?_, ?_⟩
  · intro minRow maxRow kappa
    rw [bkzKappas, List.mem_range'_1]
    omega
  · intro minRow maxRow hmem
    rw [bkzKappas, List.mem_range'_1] at hmem
    omega
  · intro env delta numRows fuel chain par loop km minRow maxRow st clean
    rfl
  · intro svp verbose bs kappa rest maxRow km st clean st1 clean1 h
    simp [tourGo, h]
  · intro svp verbose bs kappa rest maxRow km st clean st1 clean1 h
    simp [tourGo, h]

/-- Witness for C8: the swept range of a tour over rows `0..4` is `[0, 1, 2, 3]`
(blocks never start at row `4 = maxRow - 1`); one failing first block stops the
sweep, one succeeding first block steps to the rest of the sweep. -/
theorem claim_C8_witness :
    (2 ∈ bkzKappas 0 6 ↔ (0 ≤ 2 ∧ 2 + 2 ≤ 6)) ∧
    ((6 - 1) ∉ bkzKappas 0 6) ∧
    (tourGo (svpReduction envBase 1 3 2 [] parC3) false 2 (0 :: [1]) 3 0 (mkState 3) true
      = some (false, 0, ⟨3, 5, 1, 1, 1, 0, 0,
          [Event.svpEnter 0 2, Event.lllCall 0 0 2, Event.enumCall 0 2]⟩, true)) ∧
    (tourGo (svpReduction envSucc 1 3 2 [] parC3) false 2 (0 :: [1]) 3 0 (mkState 3) true
      = tourGo (svpReduction envSucc 1 3 2 [] parC3) false 2 [1] 3
          (if false = true ∧ 0 < 0 ∧ true = true then 0 else 0)
          ⟨3, 0, 1, 1, 1, 0, 0,
            [Event.svpEnter 0 2, Event.lllCall 0 0 2, Event.enumCall 0 2]⟩ true) :=
  ⟨claim_C8.1 0 6 2, claim_C8.2.1 0 6,
   claim_C8.2.2.2.1 (svpReduction envBase 1 3 2 [] parC3) false 2 0 [1] 3 0 (mkState 3) true
     ⟨3, 5, 1, 1, 1, 0, 0, [Event.svpEnter 0 2, Event.lllCall 0 0 2, Event.enumCall 0 2]⟩ true
     (by simp [svpReduction, svpEnumerate, emit, recordLLL, recordRkk, recordEnum,
       statusReturn, envBase, parC3, mkState, hasFlag, RED_SUCCESS, RED_ENUM_FAILURE,
       BKZ_BOUNDED_LLL]),
   claim_C8.2.2.2.2 (svpReduction envSucc 1 3 2 [] parC3) false 2 0 [1] 3 0 (mkState 3) true
     ⟨3, 0, 1, 1, 1, 0, 0, [Event.svpEnter 0 2, Event.lllCall 0 0 2, Event.enumCall 0 2]⟩ true
     (by simp [svpReduction, svpEnumerate, svpInsertion, classify, classifyStep,
       emit, emitAll, recordLLL, recordEnum, recordRkk, statusReturn,
       envSucc, envBase, parC3, mkState, hasFlag, List.range_succ,
       RED_SUCCESS, BKZ_BOUNDED_LLL]; norm_num)⟩

/-- C1 counterexample: the claim says `bkz()` returns `true` when it stops on
an exhausted budget cap.  With `BKZ_MAX_LOOPS` set and `maxLoops = 0`, `bkz()`
records `RED_BKZ_LOOPS_LIMIT` and runs no tour, but returns
`setStatus(finalStatus) = (status == RED_SUCCESS) = false`, not `true`. -/
theorem claim_C1_counterexample :
    bkz envBase 3 parC1 [] 5 (mkState 3)
      = some (false, ⟨3, 8, 0, 0, 0, 0, 1, [Event.discoverAllRows]⟩) := by decide

/-- C1 (amended): whenever `bkz()` stops because a budget cap is exhausted,
it records the corresponding status and returns `false` (the return value is
`status == RED_SUCCESS`): first conjunct, the loops cap; second conjunct, the
time cap; third conjunct, with `BKZ_MAX_LOOPS` set and `maxLoops = 0` the
call returns `false` with status `RED_BKZ_LOOPS_LIMIT` without running any
tour (the trace gains only the `discoverAllRows` event). -/
theorem claim_C1_amended :
    (∀ env (numRows : ℕ) param (chain : List BKZParam) (fuel : ℕ) (t0 : ℚ)
        (iLoop : ℕ) aa (km : ℕ) st,
      hasFlag param.flags BKZ_MAX_LOOPS = true → param.maxLoops ≤ (iLoop : ℤ) →
      bkzMainLoop env numRows param chain (fuel + 1) t0 iLoop aa km st
        = some (false, { st with status := RED_BKZ_LOOPS_LIMIT })) ∧
    (∀ env (numRows : ℕ) param (chain : List BKZParam) (fuel : ℕ) (t0 : ℚ)
        (iLoop : ℕ) aa (km : ℕ) st,
      ¬(hasFlag param.flags BKZ_MAX_LOOPS = true ∧ param.maxLoops ≤ (iLoop : ℤ)) →
      hasFlag param.flags BKZ_MAX_TIME = true →
      param.maxTime ≤ (env.clock st.nClock - t0) * (1 / 1000) →
      bkzMainLoop env numRows param chain (fuel + 1) t0 iLoop aa km st
        = some (false, { st with status := RED_BKZ_TIME_LIMIT, nClock := st.nClock + 1 })) ∧
    (∀ env (numRows : ℕ) param (chain : List BKZParam) (fuel : ℕ) st,
      hasFlag param.flags BKZ_MAX_LOOPS = true → param.maxLoops ≤ 0 →
      2 ≤ param.blockSize →
      bkz env numRows param chain (fuel + 1) st
        = some (false, { st with
            status := RED_BKZ_LOOPS_LIMIT
            nClock := st.nClock + 1
            trace := st.trace ++ [Event.discoverAllRows] })) := by
  refine ⟨?_, ?_, ?_⟩
  · intro env numRows param chain fuel t0 iLoop aa km st h1 h2
    simp only [bkzMainLoop]
    rw [if_pos ⟨h1, h2⟩]
    simp [setStatus, RED_BKZ_LOOPS_LIMIT, RED_SUCCESS]
  · intro env numRows param chain fuel t0 iLoop aa km st h1 h2 h3
    simp only [bkzMainLoop]
    rw [if_neg h1, if_pos h2, if_pos ⟨h2, h3⟩]
    simp [setStatus, recordClock, RED_BKZ_TIME_LIMIT, RED_SUCCESS]
  · intro env numRows param chain fuel st h1 h2 h3
    simp only [bkz]
    rw [if_neg (by omega)]
    simp only [bkzMainLoop]
    rw [if_pos ⟨h1, by simpa using h2⟩]
    simp [setStatus, emit, recordClock, RED_BKZ_LOOPS_LIMIT, RED_SUCCESS]

/-- Witness for C1: parts applied to concrete runs with `maxLoops = 0` and
with `maxTime = 0`. -/
theorem claim_C1_witness :
    (bkzMainLoop envBase 3 parC1 [] (4 + 1) 0 0 freshAutoAbort 0 (mkState 3)
      = some (false, { mkState 3 with status := RED_BKZ_LOOPS_LIMIT })) ∧
    (bkzMainLoop envBase 3 parC1T [] (4 + 1) 0 0 freshAutoAbort 0 (mkState 3)
      = some (false, { mkState 3 with status := RED_BKZ_TIME_LIMIT, nClock := (mkState 3).nClock + 1 })) ∧
    (bkz envBase 3 parC1 [] (4 + 1) (mkState 3)
      = some (false, { mkState 3 with
          status := RED_BKZ_LOOPS_LIMIT
          nClock := (mkState 3).nClock + 1
          trace := (mkState 3).trace ++ [Event.discoverAllRows] })) :=
  ⟨claim_C1_amended.1 envBase 3 parC1 [] 4 0 0 freshAutoAbort 0 (mkState 3)
     (by decide) (by decide),
   claim_C1_amended.2.1 envBase 3 parC1T [] 4 0 0 freshAutoAbort 0 (mkState 3)
     (by decide) (by decide) (by norm_num [envBase, mkState, parC1T]),
   claim_C1_amended.2.2 envBase 3 parC1 [] 4 (mkState 3)
     (by decide) (by decide) (by decide)⟩
